import Mathlib

/-!
Verification of the simple-sip-rs SIP user-agent library against its
natural-language specification.  Rust source files are shallowly embedded:
machine integers (i16, u8, usize) become Int/Nat with the source's exact
arithmetic, byte buffers become List Nat, fallible code returns Except,
and stateful loops become explicit state-passing functions.
-/

namespace SimpleSip

/-! ## G.711 companders (src/media/pcmu.rs and src/media/pcma.rs)

`i16` values are embedded as `Int` (range [-32768, 32767]); `u8` results as
`Nat` (range [0, 255]).  Rust's arithmetic right shift `>> k` on a
non-negative i16 is division by `2^k`; `!x` is `-x - 1`; `a | b` on disjoint
bit ranges is addition.  The `while` loops are embedded with a fuel bound of
16, which is never reached because the loop argument is below `2^14`.
-/

/-- The `while i != 0 { segno += 1; i >>= 1 }` loop of `pcmu.rs::encode`. -/
def segLoop : Nat → Nat → Nat → Nat
  | 0, _, segno => segno
  | fuel + 1, i, segno => if i = 0 then segno else segLoop fuel (i / 2) (segno + 1)

/-- Magnitude path of `pcmu.rs::encode`: everything after the sign split,
with `q` standing for `x >> 2` (for `x ≥ 0`) or `(!x) >> 2` (for `x < 0`),
so that `absno = q + 33`.  Returns the code byte before the sign bit. -/
def muRet (q : Nat) : Nat :=
  let absno0 := q + 33
  let absno := if absno0 > 0x1FFF then 0x1FFF else absno0
  let segno := segLoop 16 (absno / 64) 1
  let high := 8 - segno
  let low := 15 - ((absno / 2 ^ segno) % 16)
  high * 16 + low

/-- `pcmu.rs::encode`.  For `x ≥ 0` the source sets the sign bit with
`ret |= 0x0080`; since `ret ≤ 0x7F` there, this is `+ 128`. -/
def muEncode (x : Int) : Nat :=
  if x < 0 then muRet ((-x - 1).toNat / 4) else muRet (x.toNat / 4) + 128

/-- `pcmu.rs::decode`.  `mantissa = !y` on i16 has low byte `255 - y` and all
high bits set, so `(mantissa >> 4) & 0x7 = ((255 - y) / 16) % 8` and
`mantissa & 0xF = (255 - y) % 16`. -/
def muDecode (y : Nat) : Int :=
  let sign : Int := if y < 128 then -1 else 1
  let comp := 255 - y
  let exponent := (comp / 16) % 8
  let mant := comp % 16
  let segment := exponent + 1
  let step := 4 * 2 ^ segment
  sign * ((128 * 2 ^ exponent + step * mant + step / 2 - 132 : Nat) : Int)

/-- The `segno` value `pcmu.rs::encode` computes for magnitude group `q`:
the companding segment of the input. -/
def muSegnoCore (q : Nat) : Nat :=
  let absno0 := q + 33
  let absno := if absno0 > 0x1FFF then 0x1FFF else absno0
  segLoop 16 (absno / 64) 1

/-- µ-law quantization step of the companding segment of `x`: the encoder
drops `segno` low bits of `absno = x/4 + 33`, so inputs are quantized with
granularity `4 * 2 ^ segno`. -/
def muStep (x : Int) : Nat :=
  if x < 0 then 4 * 2 ^ muSegnoCore ((-x - 1).toNat / 4)
  else 4 * 2 ^ muSegnoCore (x.toNat / 4)

/-- The `while ix > 16 + 15 { ix >>= 1; iexp += 1 }` loop of
`pcma.rs::encode`, returning `(ix, iexp)`. -/
def aLoop : Nat → Nat → Nat → Nat × Nat
  | 0, ix, iexp => (ix, iexp)
  | fuel + 1, ix, iexp => if ix > 16 + 15 then aLoop fuel (ix / 2) (iexp + 1) else (ix, iexp)

/-- Segment fold of `pcma.rs::encode` applied to `q = x >> 4` (resp.
`(!x) >> 4`): returns the 7-bit code and the exponent `iexp` (0 when the
`ix > 15` branch is not taken). -/
def aCore (q : Nat) : Nat × Nat :=
  if q > 15 then
    let p := aLoop 16 q 1
    ((p.1 - 16) + p.2 * 16, p.2)
  else (q, 0)

/-- `pcma.rs::encode`.  For `x ≥ 0` the source sets `ix |= 0x0080`; since
the folded `ix ≤ 0x7F`, this is `+ 128`.  The final `(ix ^ 0x55) & 0xFF`
is `Nat.xor _ 85 % 256`. -/
def aEncode (x : Int) : Nat :=
  if x < 0 then Nat.xor (aCore ((-x - 1).toNat / 16)).1 85 % 256
  else Nat.xor ((aCore (x.toNat / 16)).1 + 128) 85 % 256

/-- `pcma.rs::decode`.  `ix = (y ^ 0x55) & 0x7F`; the mantissa arithmetic
stays below i16 range, and the sign is taken from `y > 127`. -/
def aDecode (y : Nat) : Int :=
  let ix := Nat.xor y 85 % 128
  let iexp := ix / 16
  let mant0 := ix % 16
  let mant1 := if iexp > 0 then mant0 + 16 else mant0
  let mant2 := mant1 * 16 + 8
  let mant3 := if iexp > 1 then mant2 * 2 ^ (iexp - 1) else mant2
  if y > 127 then (mant3 : Int) else -(mant3 : Int)

/-- A-law quantization step of the companding segment of `x`: granularity
16 in the two linear segments (`iexp ∈ {0, 1}` with no shift), doubling per
additional exponent step. -/
def aStepCore (q : Nat) : Nat :=
  let e := (aCore q).2
  if e = 0 then 16 else 16 * 2 ^ (e - 1)

/-- A-law quantization step as a function of the input sample. -/
def aStep (x : Int) : Nat :=
  if x < 0 then aStepCore ((-x - 1).toNat / 16) else aStepCore (x.toNat / 16)

/-! ### Exhaustive verification by magnitude group

Both encoders depend on `x` only through its sign and the magnitude group
`q` (`u >> 2` for µ-law, `u >> 4` for A-law, where `u = x` or `!x`), so one
boolean check per `(sign, q)` covers all 65536 samples. -/

/-- Binary tree of conjunctions: `checkPow f d lo` checks
`f` on `[lo * 2^d, (lo+1) * 2^d)` with recursion depth `d`. -/
def checkPow (f : Nat → Bool) : Nat → Nat → Bool
  | 0, lo => f lo
  | d + 1, lo => checkPow f d (2 * lo) && checkPow f d (2 * lo + 1)

/-- Round-trip facts for µ-law magnitude group `q`, both signs: code
stability (with the group `q = 0`, negative-sign exception) and the error
bound at each of the four samples of the group. -/
def muQCheck (q : Nat) : Bool :=
  let r := muRet q
  let dP := muDecode (r + 128)
  let dN := muDecode r
  let st := 4 * 2 ^ muSegnoCore q
  (muEncode dP == r + 128) &&
  ((muEncode dN == r) || (q == 0)) &&
  (List.range 4).all (fun t =>
    Nat.ble (dP - ((4 * q + t : Nat) : Int)).natAbs st &&
    Nat.ble (dN + ((4 * q + t : Nat) : Int) + 1).natAbs st)

/-- Round-trip facts for A-law magnitude group `q`, both signs. -/
def aQCheck (q : Nat) : Bool :=
  let c := aCore q
  let eP := Nat.xor (c.1 + 128) 85 % 256
  let eN := Nat.xor c.1 85 % 256
  let dP := aDecode eP
  let dN := aDecode eN
  let st := aStepCore q
  (aEncode dP == eP) &&
  (aEncode dN == eN) &&
  (List.range 16).all (fun t =>
    Nat.ble (dP - ((16 * q + t : Nat) : Int)).natAbs st &&
    Nat.ble (dN + ((16 * q + t : Nat) : Int) + 1).natAbs st)

def malformedHeaderErr : String := "malformed header block"

/-! ## SIP message framing (src/connection/sip_socket.rs, src/sip_proto/sip_message_decoder.rs)

Byte buffers are embedded as `List Nat` (each element a `u8`).  The rsip
header parser `SipMessage::try_from` is an external library; the framing
functions are parameterized over `parse`, and the only message data the
framing layer reads is the `Content-Length` header value and the body. -/

/-- The message data the framing layer inspects: the value of the first
`Content-Length` header (`none` when absent) and the body bytes. -/
structure SipMsg where
  contentLength : Option Nat
  body : List Nat
  deriving DecidableEq

/-- `sip_socket.rs::get_next_packet_split`: index just past the first
`CRLFCRLF` window, `none` when absent. -/
def get_next_packet_split : List Nat → Option Nat
  | 13 :: 10 :: 13 :: 10 :: _ => some 4
  | _ :: rest => (get_next_packet_split rest).map (· + 1)
  | [] => none

/-- `sip_socket.rs::try_parse_sip_header_from_buffer`: drain up to the split
index; a 4-byte packet is a keep-alive (yield nothing); otherwise parse the
header block, propagating a parse failure as an error. -/
def try_parse_sip_header_from_buffer (parse : List Nat → Option SipMsg)
    (buffer : List Nat) : Except String (Option SipMsg × List Nat) :=
  match get_next_packet_split buffer with
  | some index =>
    let packet := buffer.take index
    let rest := buffer.drop index
    if packet.length = 4 then .ok (none, rest)
    else
      match parse packet with
      | some m => .ok (some m, rest)
      | none => .error malformedHeaderErr
  | none => .ok (none, buffer)

/-- `sip_socket.rs::get_message_content_length`: first `Content-Length`
header value, defaulting to 0 (both when absent and when unparsable). -/
def get_message_content_length (m : SipMsg) : Nat := m.contentLength.getD 0

def bufferNotFilledErr : String := "Buffer not filled enough"

/-- `sip_socket.rs::try_parse_body`: drain `content_length` bytes into the
body, failing when the buffer holds fewer. -/
def try_parse_body (m : SipMsg) (buffer : List Nat) :
    Except String (SipMsg × List Nat) :=
  let content_length := get_message_content_length m
  if content_length > 0 then
    if buffer.length < content_length then .error bufferNotFilledErr
    else .ok ({ m with body := m.body ++ buffer.take content_length },
              buffer.drop content_length)
  else .ok (m, buffer)

/-- `sip_socket.rs::ensure_buffer_full`: `read_exact` the missing bytes from
the TCP stream (modeled as a byte list) when the buffer holds fewer than
`len`. -/
def ensure_buffer_full (buffer stream : List Nat) (len : Nat) :
    List Nat × List Nat :=
  if buffer.length < len then
    (buffer ++ stream.take (len - buffer.length),
     stream.drop (len - buffer.length))
  else (buffer, stream)

/-- `sip_socket.rs::get_next_message`, with the source's guard
`content_length > 0 && content_length < self.buffer.len()` kept verbatim.
Returns the optional message, the remaining buffer and remaining stream. -/
def get_next_message (parse : List Nat → Option SipMsg)
    (buffer stream : List Nat) :
    Except String (Option SipMsg × List Nat × List Nat) :=
  match try_parse_sip_header_from_buffer parse buffer with
  | .error e => .error e
  | .ok (none, buffer1) => .ok (none, buffer1, stream)
  | .ok (some m, buffer1) =>
    let content_length := get_message_content_length m
    let bs :=
      if content_length > 0 ∧ content_length < buffer1.length then
        ensure_buffer_full buffer1 stream content_length
      else (buffer1, stream)
    match try_parse_body m bs.1 with
    | .error e => .error e
    | .ok (m2, buffer2) => .ok (some m2, buffer2, bs.2)

/-- Outcome of one pass of the read branch of `SipSocket::run`. -/
inductive RunStep where
  | continueLoop (yielded : Option SipMsg) (buffer : List Nat)
  | exitError (e : String)
  deriving DecidableEq

/-- Read branch of `sip_socket.rs::run`: extend the buffer with the read
bytes and call `get_next_message`; its error is propagated by `?`, which
makes `run` return and the socket task exit. -/
def run_read_step (parse : List Nat → Option SipMsg)
    (buffer readBytes stream : List Nat) : RunStep :=
  match get_next_message parse (buffer ++ readBytes) stream with
  | .error e => .exitError e
  | .ok (m, buffer2, _) => .continueLoop m buffer2

/-! ### The incremental decoder (src/sip_proto/sip_message_decoder.rs) -/

def MAX_CONTENT_LENGTH : Nat := 50 * 1000

/-- `SipMessageDecoder` state: the message whose body is still incomplete. -/
structure SipMessageDecoder where
  pending_message : Option SipMsg
  deriving DecidableEq

/-- Result of one `decode` call.  `crashed` models the source's
`SipMessage::try_from(..).unwrap()` panicking on a malformed header. -/
inductive DecodeResult where
  | yielded (m : SipMsg)
  | needMore
  | crashed
  deriving DecidableEq

/-- Body-accumulation half of `SipMessageDecoder::decode` (the block on the
pending message): content length capped at `MAX_CONTENT_LENGTH`; append the
body once enough bytes arrived, else reserve and wait. -/
def decodeBody (st : SipMessageDecoder) (src : List Nat) :
    DecodeResult × SipMessageDecoder × List Nat :=
  match st.pending_message with
  | none => (.needMore, st, src)
  | some m =>
    let content_length := (get_message_content_length m).min MAX_CONTENT_LENGTH
    let ms :=
      if content_length ≤ src.length then
        ({ m with body := m.body ++ src.take content_length },
         src.drop content_length)
      else (m, src)
    if ms.1.body.length = content_length then
      (.yielded ms.1, { pending_message := none }, ms.2)
    else (.needMore, { pending_message := some ms.1 }, ms.2)

/-- `SipMessageDecoder::decode`: find the header block (handling the
keep-alive case), parse it into the pending slot, then run the body half. -/
def SipMessageDecoder.decode (parse : List Nat → Option SipMsg)
    (st : SipMessageDecoder) (src : List Nat) :
    DecodeResult × SipMessageDecoder × List Nat :=
  match st.pending_message with
  | some _ => decodeBody st src
  | none =>
    match get_next_packet_split src with
    | none => decodeBody st src
    | some index =>
      if index = 4 then (.needMore, st, src.drop 4)
      else
        match parse (src.take index) with
        | none => (.crashed, st, src)
        | some m => decodeBody { pending_message := some m } (src.drop index)

/-! ### Concrete parse oracles for the framing theorems -/

/-- Parse oracle producing a header-only message with `Content-Length: 50001`. -/
def parseCL50001 : List Nat → Option SipMsg :=
  fun _ => some { contentLength := some 50001, body := [] }

/-- Parse oracle producing a header-only message with `Content-Length: 10`. -/
def parseCL10 : List Nat → Option SipMsg :=
  fun _ => some { contentLength := some 10, body := [] }

/-- Parse oracle that always fails (malformed header block). -/
def parseFail : List Nat → Option SipMsg := fun _ => none

/-- A 5-byte header block (one byte, then CRLFCRLF). -/
def hdr5 : List Nat := [65, 13, 10, 13, 10]

/-- A 5-byte header block whose first byte differs from hdr5. -/
def hdr5b : List Nat := [88, 13, 10, 13, 10]

/-! ## Registration and digest auth (src/generators/register.rs,
src/connection/sip_socket.rs::register)

Strings stay `String`; the MD5 hash of the external `md5` crate (rendered
as lowercase hex by `format!("{:x}", ..)`) is an opaque parameter
`md5 : String → String`.  `config.server_addr.ip()` is modeled by the
`server_ip` field. -/

structure Config where
  server_ip : String
  own_addr : String
  username : String
  password : String
  deriving DecidableEq

structure ConfigAuth where
  config : Config
  realm : String
  nonce : String

inductive AuthScheme where
  | digest
  deriving DecidableEq

/-- The typed `Authorization` header built by `add_auth_header`. -/
structure AuthHeader where
  scheme : AuthScheme
  username : String
  realm : String
  nonce : String
  uri_host : String
  uri_transport_tcp : Bool
  response : String
  algorithm : Option String
  opq : Option String
  qop : Option String
  deriving DecidableEq

/-- The parts of an rsip request the REGISTER path reads or writes. -/
structure SipRequestModel where
  call_id : String
  cseq_seq : Nat
  cseq_method : String
  auth_headers : List AuthHeader
  deriving DecidableEq

/-- `register.rs::add_auth_header`: HA1/HA2/response digests and the
appended `Authorization` header (Digest scheme, MD5 algorithm, no qop, no
opaque). -/
def add_auth_header (md5 : String → String) (message : SipRequestModel)
    (payload : ConfigAuth) : SipRequestModel :=
  let hash1 := md5 (payload.config.username ++ ":" ++ payload.realm ++ ":" ++
    payload.config.password)
  let hash2 := md5 (message.cseq_method ++ ":sip:" ++ payload.config.server_ip ++
    ";transport=TCP")
  let auth_response := md5 (hash1 ++ ":" ++ payload.nonce ++ ":" ++ hash2)
  { message with
    auth_headers := message.auth_headers ++
      [{ scheme := .digest
         username := payload.config.username
         realm := payload.realm
         nonce := payload.nonce
         uri_host := payload.config.server_ip
         uri_transport_tcp := true
         response := auth_response
         algorithm := some ("MD5")
         opq := none
         qop := none }] }

/-- `generators/register.rs::generate_register_request`: the Call-ID is the
hardcoded literal of the source (its TODO comment: use generated callid),
CSeq is 1 with method REGISTER, and no Authorization header yet. -/
def generate_register_request (_config : Config) : SipRequestModel :=
  { call_id := "fB51qweqqvxBQrvBY2t0_Q.."
    cseq_seq := 1
    cseq_method := "REGISTER"
    auth_headers := [] }

/-- Status codes distinguished by `SipSocket::register`. -/
inductive RegStatus where
  | ok
  | unauthorized
  | other (code : Nat)
  deriving DecidableEq

/-- An incoming SIP message as seen by the handshake: a response with a
status, or a request. -/
inductive InMsg where
  | response (status : RegStatus)
  | request
  deriving DecidableEq

/-- The `WWW-Authenticate` challenge data used on 401. -/
structure WwwAuth where
  realm : String
  nonce : String

def unexpectedRespErr : String := "Did not get expected response"
def failedRegisterErr : String := "Failed to register with status code"
def unexpectedStatusErr : String := "Got unexpected status code"

/-- `sip_socket.rs::register`: send REGISTER (CSeq 1); on 200 OK succeed; on
401 add the digest Authorization, set CSeq to 2, resend, succeed only on
200 OK; fail on anything else.  Returns the requests sent in order. -/
def register (md5 : String → String) (config : Config) (resp1 : InMsg)
    (www : WwwAuth) (resp2 : InMsg) : Except String (List SipRequestModel) :=
  let req := generate_register_request config
  match resp1 with
  | .request => .error unexpectedRespErr
  | .response s =>
    match s with
    | .unauthorized =>
      let reqAuth := add_auth_header md5 req
        { config := config, realm := www.realm, nonce := www.nonce }
      let req2 := { reqAuth with cseq_seq := 2 }
      match resp2 with
      | .response .ok => .ok [req, req2]
      | .response _ => .error failedRegisterErr
      | .request => .error unexpectedRespErr
    | .ok => .ok [req]
    | .other _ => .error unexpectedStatusErr

/-! ## Manager stop (src/manager.rs) -/

/-- State of `InnerSipManager`'s socket task handle: whether the spawned
task has finished, and whether `abort()` has been called on it. -/
structure InnerSipManager where
  finished : Bool
  aborted : Bool
  deriving DecidableEq

/-- `InnerSipManager::is_running`: `!self.handle.is_finished()`. -/
def InnerSipManager.is_running (s : InnerSipManager) : Bool := !s.finished

/-- `InnerSipManager::stop`: `if !self.is_running() { self.handle.abort(); }`
(the source's guard, kept verbatim). -/
def InnerSipManager.stop (s : InnerSipManager) : InnerSipManager :=
  if !s.is_running then { s with aborted := true } else s

/-- `impl Drop for InnerSipManager` calls `self.stop()`. -/
def InnerSipManager.drop (s : InnerSipManager) : InnerSipManager := s.stop

/-- `SipManager::stop`: `drop(self.inner.take())`.  Returns the new `inner`
field (always `none`) and the state of the dropped inner manager after its
`Drop` ran. -/
def SipManager.stop (inner : Option InnerSipManager) :
    Option InnerSipManager × Option InnerSipManager :=
  (none, inner.map InnerSipManager.drop)

/-- `SipManager::is_running`: false when there is no inner manager,
otherwise the inner manager's `is_running`. -/
def SipManager.is_running (inner : Option InnerSipManager) : Bool :=
  match inner with
  | some s => s.is_running
  | none => false

/-! ## Media model (src/call/mod.rs, src/media/telephone_events.rs,
src/media/{opus,pcmu,pcma}.rs::append_to_buffer) -/

/-- RFC 4733 named events (`telephone_events.rs::TelephoneEvent`). -/
inductive TelephoneEvent where
  | zero | one | two | three | four | five | six | seven | eight | nine
  | star | hash | a | b | c | d
  deriving DecidableEq

def invalidByteErr : String := "Invalid byte"

/-- `TelephoneEvent::try_from_byte`. -/
def TelephoneEvent.try_from_byte (b : Nat) : Except String TelephoneEvent :=
  match b with
  | 0 => .ok .zero
  | 1 => .ok .one
  | 2 => .ok .two
  | 3 => .ok .three
  | 4 => .ok .four
  | 5 => .ok .five
  | 6 => .ok .six
  | 7 => .ok .seven
  | 8 => .ok .eight
  | 9 => .ok .nine
  | 10 => .ok .star
  | 11 => .ok .hash
  | 12 => .ok .a
  | 13 => .ok .b
  | 14 => .ok .c
  | 15 => .ok .d
  | _ => .error invalidByteErr

/-- `call/mod.rs::Media`.  Audio samples are interleaved stereo f32; no
arithmetic is done on them here, so `Float` is embedded directly. -/
inductive Media where
  | audio (samples : List Float)
  | telephoneEvent (ev : TelephoneEvent) (isEnd : Bool)
  | outputEmpty

/-- `TelephoneEventsCodec`: negotiated payload type and the set of
currently pressed keys (`HashSet` embedded as `Finset`). -/
structure TelephoneEventsCodec where
  payload_type : Nat
  pressed_keys : Finset TelephoneEvent

def invalidMainBodyErr : String := "Invalid main body"
def invalidEndErr : String := "Invalid end"

/-- `TelephoneEventsCodec::decode_payload`: byte 0 is the event, bit 7 of
byte 1 the end flag; repeats with the end bit clear while the key is
pressed are suppressed; the end bit removes the key, otherwise it is
inserted. -/
def decode_payload (c : TelephoneEventsCodec) (payload : List Nat) :
    Except String (Option Media × TelephoneEventsCodec) :=
  match payload.get? 0 with
  | none => .error invalidMainBodyErr
  | some b0 =>
    match TelephoneEvent.try_from_byte b0 with
    | .error e => .error e
    | .ok event =>
      match payload.get? 1 with
      | none => .error invalidEndErr
      | some b1 =>
        let isEnd : Bool := Nat.land b1 128 != 0
        if isEnd = false ∧ event ∈ c.pressed_keys then .ok (none, c)
        else if isEnd then
          .ok (some (.telephoneEvent event isEnd),
               { c with pressed_keys := c.pressed_keys.erase event })
        else
          .ok (some (.telephoneEvent event isEnd),
               { c with pressed_keys := insert event c.pressed_keys })

/-- `pcmu.rs::append_to_buffer`: writes are dropped once the outbound
buffer holds more than 5000 samples. -/
def pcmu_append_to_buffer (buffer_out : List Float) (media : Media) :
    List Float :=
  if buffer_out.length > 5000 then buffer_out
  else
    match media with
    | .audio buffer => buffer_out ++ buffer
    | _ => buffer_out

/-- `pcma.rs::append_to_buffer`: same 5000-sample cap as PCMU. -/
def pcma_append_to_buffer (buffer_out : List Float) (media : Media) :
    List Float :=
  if buffer_out.length > 5000 then buffer_out
  else
    match media with
    | .audio buffer => buffer_out ++ buffer
    | _ => buffer_out

/-- `opus.rs::append_to_buffer`: appends unconditionally (no cap in the
source). -/
def opus_append_to_buffer (buffer_out : List Float) (media : Media) :
    List Float :=
  match media with
  | .audio buffer => buffer_out ++ buffer
  | _ => buffer_out

/-! ## Call-ID routing table (src/connection/socket_data.rs) -/

def channelExistsErr : String := "A channel for this call id already exists"

/-- `SocketData`: the `HashMap<String, Sender<SipMessage>>` is embedded as
an association list; a sender is identified by an abstract token. -/
structure SocketData where
  call_channels : List (String × Nat)

/-- `HashMap::contains_key`. -/
def SocketData.contains_key (sd : SocketData) (k : String) : Bool :=
  sd.call_channels.any (fun p => p.1 == k)

/-- `SocketData::create_call_channel`: error when an entry already exists
(the map untouched); otherwise create a channel (`fresh` stands for the new
`mpsc::channel(32)` pair), store the sender and return the receiver. -/
def create_call_channel (sd : SocketData) (call_id : String) (fresh : Nat) :
    Except String Nat × SocketData :=
  if sd.contains_key call_id then (.error channelExistsErr, sd)
  else (.ok fresh, { call_channels := sd.call_channels ++ [(call_id, fresh)] })


/-! ## Theorems -/

theorem checkPow_true {f : Nat → Bool} :
    ∀ d lo, checkPow f d lo = true → ∀ n, n < 2 ^ d → f (lo * 2 ^ d + n) = true := by
  intro d
  induction d with
  | zero =>
    intro lo h n hn
    interval_cases n
    simpa using h
  | succ m ih =>
    intro lo h n hn
    rw [checkPow, Bool.and_eq_true] at h
    by_cases hc : n < 2 ^ m
    · have hf := ih (2 * lo) h.1 n hc
      have he : 2 * lo * 2 ^ m + n = lo * 2 ^ (m + 1) + n := by ring
      rwa [he] at hf
    · obtain ⟨q, rfl, hq⟩ : ∃ q, n = 2 ^ m + q ∧ q < 2 ^ m := by
        refine ⟨n - 2 ^ m, by omega, ?_⟩
        have h2 : 2 ^ (m + 1) = 2 ^ m * 2 := by ring
        omega
      have hf := ih (2 * lo + 1) h.2 q hq
      have he : (2 * lo + 1) * 2 ^ m + q = lo * 2 ^ (m + 1) + (2 ^ m + q) := by ring
      rwa [he] at hf

/-! The 8192 µ-law groups and 2048 A-law groups are verified in blocks
of 512 to bound the kernel memory needed per declaration. -/

set_option maxHeartbeats 16000000 in
theorem muQBlock0 : checkPow muQCheck 9 0 = true := by decide

set_option maxHeartbeats 16000000 in
theorem muQBlock1 : checkPow muQCheck 9 1 = true := by decide

set_option maxHeartbeats 16000000 in
theorem muQBlock2 : checkPow muQCheck 9 2 = true := by decide

set_option maxHeartbeats 16000000 in
theorem muQBlock3 : checkPow muQCheck 9 3 = true := by decide

set_option maxHeartbeats 16000000 in
theorem muQBlock4 : checkPow muQCheck 9 4 = true := by decide

set_option maxHeartbeats 16000000 in
theorem muQBlock5 : checkPow muQCheck 9 5 = true := by decide

set_option maxHeartbeats 16000000 in
theorem muQBlock6 : checkPow muQCheck 9 6 = true := by decide

set_option maxHeartbeats 16000000 in
theorem muQBlock7 : checkPow muQCheck 9 7 = true := by decide

set_option maxHeartbeats 16000000 in
theorem muQBlock8 : checkPow muQCheck 9 8 = true := by decide

set_option maxHeartbeats 16000000 in
theorem muQBlock9 : checkPow muQCheck 9 9 = true := by decide

set_option maxHeartbeats 16000000 in
theorem muQBlock10 : checkPow muQCheck 9 10 = true := by decide

set_option maxHeartbeats 16000000 in
theorem muQBlock11 : checkPow muQCheck 9 11 = true := by decide

set_option maxHeartbeats 16000000 in
theorem muQBlock12 : checkPow muQCheck 9 12 = true := by decide

set_option maxHeartbeats 16000000 in
theorem muQBlock13 : checkPow muQCheck 9 13 = true := by decide

set_option maxHeartbeats 16000000 in
theorem muQBlock14 : checkPow muQCheck 9 14 = true := by decide

set_option maxHeartbeats 16000000 in
theorem muQBlock15 : checkPow muQCheck 9 15 = true := by decide

set_option maxHeartbeats 16000000 in
theorem aQBlock0 : checkPow aQCheck 9 0 = true := by decide

set_option maxHeartbeats 16000000 in
theorem aQBlock1 : checkPow aQCheck 9 1 = true := by decide

set_option maxHeartbeats 16000000 in
theorem aQBlock2 : checkPow aQCheck 9 2 = true := by decide

set_option maxHeartbeats 16000000 in
theorem aQBlock3 : checkPow aQCheck 9 3 = true := by decide


/-- A 512-wide block theorem covers every index in its range. -/
theorem block_true (f : Nat → Bool) (b : Nat) (hb : checkPow f 9 b = true)
    (q : Nat) (h1 : 512 * b ≤ q) (h2 : q < 512 * (b + 1)) : f q = true := by
  have h := checkPow_true 9 b hb (q - 512 * b) (by norm_num; omega)
  have he : b * 2 ^ 9 + (q - 512 * b) = q := by norm_num; omega
  rwa [he] at h

/-- Every µ-law magnitude group below 8192 passes its round-trip check. -/
theorem muQ_true (q : Nat) (hq : q < 8192) : muQCheck q = true := by
  have hd : q / 512 < 16 := by omega
  set b := q / 512 with hbdef
  interval_cases b
  · exact block_true muQCheck 0 muQBlock0 q (by omega) (by omega)
  · exact block_true muQCheck 1 muQBlock1 q (by omega) (by omega)
  · exact block_true muQCheck 2 muQBlock2 q (by omega) (by omega)
  · exact block_true muQCheck 3 muQBlock3 q (by omega) (by omega)
  · exact block_true muQCheck 4 muQBlock4 q (by omega) (by omega)
  · exact block_true muQCheck 5 muQBlock5 q (by omega) (by omega)
  · exact block_true muQCheck 6 muQBlock6 q (by omega) (by omega)
  · exact block_true muQCheck 7 muQBlock7 q (by omega) (by omega)
  · exact block_true muQCheck 8 muQBlock8 q (by omega) (by omega)
  · exact block_true muQCheck 9 muQBlock9 q (by omega) (by omega)
  · exact block_true muQCheck 10 muQBlock10 q (by omega) (by omega)
  · exact block_true muQCheck 11 muQBlock11 q (by omega) (by omega)
  · exact block_true muQCheck 12 muQBlock12 q (by omega) (by omega)
  · exact block_true muQCheck 13 muQBlock13 q (by omega) (by omega)
  · exact block_true muQCheck 14 muQBlock14 q (by omega) (by omega)
  · exact block_true muQCheck 15 muQBlock15 q (by omega) (by omega)

/-- Every A-law magnitude group below 2048 passes its round-trip check. -/
theorem aQ_true (q : Nat) (hq : q < 2048) : aQCheck q = true := by
  have hd : q / 512 < 4 := by omega
  set b := q / 512 with hbdef
  interval_cases b
  · exact block_true aQCheck 0 aQBlock0 q (by omega) (by omega)
  · exact block_true aQCheck 1 aQBlock1 q (by omega) (by omega)
  · exact block_true aQCheck 2 aQBlock2 q (by omega) (by omega)
  · exact block_true aQCheck 3 aQBlock3 q (by omega) (by omega)

theorem split_hdr5 (tail : List Nat) :
    get_next_packet_split (65 :: 13 :: 10 :: 13 :: 10 :: tail) = some 5 := rfl


theorem strAppend_assoc : ∀ (a b c : String), a ++ b ++ c = a ++ (b ++ c)
  | ⟨d1⟩, ⟨d2⟩, ⟨d3⟩ => congrArg String.mk (List.append_assoc d1 d2 d3)

theorem colon_merge (s : String) :
    s ++ ":" ++ "abcdef" ++ ":" = s ++ ":abcdef:" := by
  rw [strAppend_assoc, strAppend_assoc]
  rfl

/-- C1: the registration handshake sends REGISTER with CSeq 1 and method
REGISTER; a 200 OK registers; a 401 adds the digest Authorization, sets
CSeq to 2 and resends, succeeding only on a subsequent 200 OK; any other
status (or a request in place of a response) fails the connect call.
However the Call-ID is the hardcoded source literal for every config and
every run — not fresh (the source's own TODO marks this as a bug). -/
theorem register_handshake_behavior (md5 : String → String) (c1 c2 : Config)
    (www : WwwAuth) (r2 : InMsg) :
    (generate_register_request c1).call_id = "fB51qweqqvxBQrvBY2t0_Q.." ∧
    (generate_register_request c1).call_id = (generate_register_request c2).call_id ∧
    (generate_register_request c1).cseq_seq = 1 ∧
    (generate_register_request c1).cseq_method = "REGISTER" ∧
    register md5 c1 (.response .ok) www r2 = .ok [generate_register_request c1] ∧
    (register md5 c1 (.response .unauthorized) www (.response .ok) =
      .ok [generate_register_request c1,
           { add_auth_header md5 (generate_register_request c1)
               { config := c1, realm := www.realm, nonce := www.nonce } with
             cseq_seq := 2 }]) ∧
    (∀ code, register md5 c1 (.response (.other code)) www r2 =
      .error unexpectedStatusErr) ∧
    (∀ code, register md5 c1 (.response .unauthorized) www
      (.response (.other code)) = .error failedRegisterErr) ∧
    (register md5 c1 (.response .unauthorized) www (.response .unauthorized) =
      .error failedRegisterErr) ∧
    (register md5 c1 (.response .unauthorized) www .request =
      .error unexpectedRespErr) ∧
    (register md5 c1 .request www r2 = .error unexpectedRespErr) := by
  refine ⟨rfl, rfl, rfl, rfl, rfl, rfl, fun code => rfl, fun code => rfl, rfl, rfl, rfl⟩

/-- C2 counterexample: a message with Content-Length 50001 (over the
50000-byte cap) is not rejected with a decode error; once 50001 body bytes
arrived the decoder yields it with the body truncated to 50000 bytes. -/
theorem decoder_yields_over_cap_counterexample :
    SipMessageDecoder.decode parseCL50001 { pending_message := none }
        (hdr5 ++ List.replicate 50001 0) =
      (.yielded { contentLength := some 50001, body := List.replicate 50000 0 },
       { pending_message := none }, List.replicate 1 0) := by
  rw [SipMessageDecoder.decode]
  simp only [hdr5, List.cons_append, List.nil_append, split_hdr5]
  norm_num [decodeBody, parseCL50001, get_message_content_length,
    MAX_CONTENT_LENGTH, List.take_replicate, List.drop_replicate,
    List.length_replicate]

/-- C2 (amended): for every pending message whose Content-Length exceeds
the 50000-byte cap, the decoder caps the wanted length at 50000 and, once
50000 bytes are buffered, yields the message with a 50000-byte body —
no decode error is raised. -/
theorem decoder_caps_content_length (parse : List Nat → Option SipMsg)
    (m : SipMsg) (src : List Nat) (hb : m.body = [])
    (hcl : MAX_CONTENT_LENGTH < get_message_content_length m)
    (hsrc : MAX_CONTENT_LENGTH ≤ src.length) :
    SipMessageDecoder.decode parse { pending_message := some m } src =
      (.yielded { m with body := src.take MAX_CONTENT_LENGTH },
       { pending_message := none }, src.drop MAX_CONTENT_LENGTH) := by
  rw [SipMessageDecoder.decode]
  have hmin : (get_message_content_length m).min MAX_CONTENT_LENGTH =
      MAX_CONTENT_LENGTH := Nat.min_eq_right (le_of_lt hcl)
  rw [decodeBody]
  simp [hmin, hb, hsrc, List.length_take, Nat.min_eq_left hsrc]

theorem decoder_caps_content_length_witness :
    SipMessageDecoder.decode parseCL50001
        { pending_message := some { contentLength := some 50001, body := [] } }
        (List.replicate 50000 0) =
      (.yielded { contentLength := some 50001,
                  body := (List.replicate 50000 0).take MAX_CONTENT_LENGTH },
       { pending_message := none },
       (List.replicate 50000 0).drop MAX_CONTENT_LENGTH) :=
  decoder_caps_content_length parseCL50001 _ _ rfl (by decide)
    (by norm_num [MAX_CONTENT_LENGTH])

/-- C3: failing input for the live socket path: with a complete header
block (Content-Length 10) and only 5 body bytes buffered,
`get_next_message` returns the error `Buffer not filled enough` instead of
awaiting more bytes, and the run loop propagates it (task exit).  The
`SipMessageDecoder` component handles the same bytes as the claim states:
it awaits without error and yields the message exactly once with exactly
Content-Length body bytes. -/
theorem socket_partial_body_errors :
    get_next_message parseCL10 (hdr5 ++ [1, 2, 3, 4, 5]) [6, 7, 8, 9, 10] =
      .error bufferNotFilledErr ∧
    run_read_step parseCL10 hdr5 [1, 2, 3, 4, 5] [6, 7, 8, 9, 10] =
      .exitError bufferNotFilledErr ∧
    SipMessageDecoder.decode parseCL10 { pending_message := none }
        (hdr5 ++ [1, 2, 3, 4, 5]) =
      (.needMore,
       { pending_message := some { contentLength := some 10, body := [] } },
       [1, 2, 3, 4, 5]) ∧
    SipMessageDecoder.decode parseCL10
        { pending_message := some { contentLength := some 10, body := [] } }
        [1, 2, 3, 4, 5, 6, 7, 8, 9, 10] =
      (.yielded { contentLength := some 10, body := [1, 2, 3, 4, 5, 6, 7, 8, 9, 10] },
       { pending_message := none }, []) := by
  refine ⟨rfl, rfl, rfl, rfl⟩

/-- C4 counterexample: on a malformed header block the read loop does not
continue; the step exits with the decode error and the socket task ends. -/
theorem run_step_malformed_exits_counterexample :
    run_read_step parseFail [] hdr5b [] = .exitError malformedHeaderErr := rfl

/-- C4 (amended): when the header block is malformed, decoding surfaces a
decode error, and the read loop of `run` propagates it with `?`, so the
socket task exits and the connection is torn down (it does not log and
continue). -/
theorem run_step_decode_error_exits (parse : List Nat → Option SipMsg)
    (buffer readBytes stream : List Nat) (e : String)
    (h : get_next_message parse (buffer ++ readBytes) stream = .error e) :
    run_read_step parse buffer readBytes stream = .exitError e := by
  simp [run_read_step, h]

theorem run_step_decode_error_exits_witness :
    run_read_step parseFail [] hdr5 [] = .exitError malformedHeaderErr :=
  run_step_decode_error_exits parseFail [] hdr5 [] malformedHeaderErr rfl

/-- C5: `InnerSipManager::stop` aborts the socket task only when the task
has already finished (`if !self.is_running()`), so stopping or dropping the
manager while the task runs leaves it unaborted and the TCP connection
open; `SipManager::is_running` does return false afterwards because the
inner manager is dropped. -/
theorem manager_stop_skips_abort_when_running :
    InnerSipManager.stop { finished := false, aborted := false } =
      { finished := false, aborted := false } ∧
    (InnerSipManager.stop { finished := true, aborted := false }).aborted = true ∧
    SipManager.is_running
      (SipManager.stop (some { finished := false, aborted := false })).1 = false ∧
    (SipManager.stop (some { finished := false, aborted := false })).2 =
      some { finished := false, aborted := false } := by
  refine ⟨rfl, rfl, rfl, rfl⟩

/-- C6: `add_auth_header` appends exactly one Authorization header with
scheme Digest, algorithm MD5, no qop and no opaque, whose response is
MD5(HA1 : nonce : HA2) with HA1 = MD5(username:realm:password) and
HA2 = MD5(method ++ an uri of the form sip:host;transport=TCP); at the
claim's concrete inputs the response is exactly
md5 (md5 "alice:asterisk:secret" ++ ":abcdef:" ++
md5 "REGISTER:sip:192.0.2.1;transport=TCP"). -/
theorem add_auth_header_digest (md5 : String → String) (msg : SipRequestModel)
    (p : ConfigAuth) :
    add_auth_header md5 msg p =
      { msg with auth_headers := msg.auth_headers ++
        [{ scheme := .digest
           username := p.config.username
           realm := p.realm
           nonce := p.nonce
           uri_host := p.config.server_ip
           uri_transport_tcp := true
           response := md5 (md5 (p.config.username ++ ":" ++ p.realm ++ ":" ++
               p.config.password) ++ ":" ++ p.nonce ++ ":" ++
             md5 (msg.cseq_method ++ ":sip:" ++ p.config.server_ip ++
               ";transport=TCP"))
           algorithm := some ("MD5")
           opq := none
           qop := none }] } ∧
    (add_auth_header md5
        { call_id := "x", cseq_seq := 2, cseq_method := "REGISTER",
          auth_headers := [] }
        { config := { server_ip := "192.0.2.1", own_addr := "192.0.2.9",
                      username := "alice", password := "secret" },
          realm := "asterisk", nonce := "abcdef" }).auth_headers =
      [{ scheme := .digest
         username := "alice"
         realm := "asterisk"
         nonce := "abcdef"
         uri_host := "192.0.2.1"
         uri_transport_tcp := true
         response := md5 (md5 ("alice:asterisk:secret") ++ ":abcdef:" ++
           md5 ("REGISTER:sip:192.0.2.1;transport=TCP"))
         algorithm := some ("MD5")
         opq := none
         qop := none }] := by
  constructor
  · rfl
  · have h1 : ("alice" ++ ":" ++ "asterisk" ++ ":" ++ "secret" : String) =
        "alice:asterisk:secret" := rfl
    have h2 : ("REGISTER" ++ ":sip:" ++ "192.0.2.1" ++ ";transport=TCP" : String) =
        "REGISTER:sip:192.0.2.1;transport=TCP" := rfl
    simp only [add_auth_header]
    rw [show (md5 ("alice" ++ ":" ++ "asterisk" ++ ":" ++ "secret") ++ ":" ++
        "abcdef" ++ ":" ++ md5 ("REGISTER" ++ ":sip:" ++ "192.0.2.1" ++
        ";transport=TCP")) = (md5 ("alice:asterisk:secret") ++ ":abcdef:" ++
        md5 ("REGISTER:sip:192.0.2.1;transport=TCP")) from by
      rw [h1, h2, colon_merge]]
    rfl

set_option maxRecDepth 8192 in
/-- C7: the telephone-event decoder maintains the pressed-key set: end bit
clear and event not in the set emits a key-down and inserts it; end bit set
emits a key-up and removes it; end bit clear for a pressed event emits
nothing.  In particular on a fresh codec [0x05,0x00,0x00,0xA0] emits
(Five, down), a repeat emits nothing, and [0x05,0x80,0x01,0x40] emits
(Five, up). -/
theorem decode_payload_edge_semantics (c : TelephoneEventsCodec) (b0 b1 : Nat)
    (rest : List Nat) (e : TelephoneEvent)
    (hb : TelephoneEvent.try_from_byte b0 = .ok e) :
    (Nat.land b1 128 = 0 → e ∉ c.pressed_keys →
      decode_payload c (b0 :: b1 :: rest) =
        .ok (some (.telephoneEvent e false),
             { c with pressed_keys := insert e c.pressed_keys })) ∧
    (Nat.land b1 128 ≠ 0 →
      decode_payload c (b0 :: b1 :: rest) =
        .ok (some (.telephoneEvent e true),
             { c with pressed_keys := c.pressed_keys.erase e })) ∧
    (Nat.land b1 128 = 0 → e ∈ c.pressed_keys →
      decode_payload c (b0 :: b1 :: rest) = .ok (none, c)) ∧
    (decode_payload { payload_type := 101, pressed_keys := ∅ } [5, 0, 0, 160] =
      .ok (some (.telephoneEvent .five false),
           { payload_type := 101, pressed_keys := {TelephoneEvent.five} }) ∧
     decode_payload { payload_type := 101, pressed_keys := {TelephoneEvent.five} }
        [5, 0, 0, 160] =
      .ok (none, { payload_type := 101, pressed_keys := {TelephoneEvent.five} }) ∧
     decode_payload { payload_type := 101, pressed_keys := {TelephoneEvent.five} }
        [5, 128, 1, 64] =
      .ok (some (.telephoneEvent .five true),
           { payload_type := 101, pressed_keys := ∅ })) := by
  refine ⟨?_, ?_, ?_, ?_, ?_, ?_⟩
  · intro h1 h2
    rw [decode_payload]
    simp only [List.get?_cons_zero, List.get?_cons_succ, hb, h1]
    simp [h2]
  · intro h1
    have hne : (Nat.land b1 128 != 0) = true := by simpa using h1
    rw [decode_payload]
    simp only [List.get?_cons_zero, List.get?_cons_succ, hb, hne]
    simp
  · intro h1 h2
    rw [decode_payload]
    simp only [List.get?_cons_zero, List.get?_cons_succ, hb, h1]
    simp [h2]
  · rfl
  · rfl
  · rfl

theorem decode_payload_edge_semantics_witness :
    decode_payload { payload_type := 101, pressed_keys := ∅ } [5, 0, 0, 160] =
      .ok (some (.telephoneEvent .five false),
           { payload_type := 101, pressed_keys := {TelephoneEvent.five} }) ∧
    decode_payload { payload_type := 101, pressed_keys := {TelephoneEvent.five} }
        [5, 0, 0, 160] =
      .ok (none, { payload_type := 101, pressed_keys := {TelephoneEvent.five} }) ∧
    decode_payload { payload_type := 101, pressed_keys := {TelephoneEvent.five} }
        [5, 128, 1, 64] =
      .ok (some (.telephoneEvent .five true),
           { payload_type := 101, pressed_keys := ∅ }) :=
  (decode_payload_edge_semantics { payload_type := 101, pressed_keys := ∅ }
    5 0 [0, 160] .five rfl).2.2.2

/-- C9 counterexample: `OpusCodec::append_to_buffer` has no cap: with
5001 samples (beyond the 5000-sample soft cap) already buffered, a further
write is not dropped — the buffer grows to 5002. -/
theorem opus_append_no_cap_counterexample :
    5000 < (List.replicate 5001 (0 : Float)).length ∧
    opus_append_to_buffer (List.replicate 5001 (0 : Float)) (.audio [0]) ≠
      List.replicate 5001 (0 : Float) := by
  constructor
  · rw [List.length_replicate]
    norm_num
  · intro h
    have hl := congrArg List.length h
    simp only [opus_append_to_buffer, List.length_append, List.length_replicate,
      List.length_cons, List.length_nil] at hl
    omega

/-- C9 (amended): for the PCMU and PCMA codecs, once the outbound PCM
buffer holds more than 5000 samples further `append_to_buffer` writes are
dropped; the Opus codec applies no such cap. -/
theorem pcm_append_cap (buf : List Float) (m : Media) (h : 5000 < buf.length) :
    pcmu_append_to_buffer buf m = buf ∧ pcma_append_to_buffer buf m = buf := by
  constructor <;> simp [pcmu_append_to_buffer, pcma_append_to_buffer, h]

theorem pcm_append_cap_witness :
    pcmu_append_to_buffer (List.replicate 5001 (0 : Float)) (.audio [0]) =
      List.replicate 5001 (0 : Float) ∧
    pcma_append_to_buffer (List.replicate 5001 (0 : Float)) (.audio [0]) =
      List.replicate 5001 (0 : Float) :=
  pcm_append_cap _ _ (by rw [List.length_replicate]; norm_num)

/-- C10: the Call-ID routing table maps every Call-ID to at most one
channel: `create_call_channel` errors when an entry exists and leaves the
table unchanged; otherwise it appends exactly one sender for that Call-ID,
preserving key uniqueness. -/
theorem create_call_channel_unique (sd : SocketData) (id : String) (fresh : Nat) :
    (sd.contains_key id = true →
      create_call_channel sd id fresh = (.error channelExistsErr, sd)) ∧
    (sd.contains_key id = false →
      create_call_channel sd id fresh =
        (.ok fresh, { call_channels := sd.call_channels ++ [(id, fresh)] }) ∧
      id ∉ sd.call_channels.map Prod.fst ∧
      ((sd.call_channels.map Prod.fst).Nodup →
        ((sd.call_channels ++ [(id, fresh)]).map Prod.fst).Nodup)) := by
  constructor
  · intro h
    simp [create_call_channel, h]
  · intro h
    have hnotmem : id ∉ sd.call_channels.map Prod.fst := by
      intro hmem
      obtain ⟨p, hp, hfst⟩ := List.mem_map.mp hmem
      have := List.any_eq_false.mp h p hp
      simp [hfst] at this
    refine ⟨by simp [create_call_channel, h], hnotmem, ?_⟩
    intro hnd
    have hmap : (sd.call_channels ++ [(id, fresh)]).map Prod.fst =
        sd.call_channels.map Prod.fst ++ [id] := by simp
    rw [hmap]
    simp [List.nodup_append, hnd, List.disjoint_singleton, hnotmem]

theorem create_call_channel_unique_witness :
    (SocketData.contains_key { call_channels := [("a", 1)] } "a" = true →
      create_call_channel { call_channels := [("a", 1)] } "a" 2 =
        (.error channelExistsErr, { call_channels := [("a", 1)] })) ∧
    (SocketData.contains_key { call_channels := [("a", 1)] } "a" = false →
      create_call_channel { call_channels := [("a", 1)] } "a" 2 =
        (.ok 2, { call_channels := [("a", 1), ("a", 2)] }) ∧
      "a" ∉ ([("a", 1)] : List (String × Nat)).map Prod.fst ∧
      ((([("a", 1)] : List (String × Nat)).map Prod.fst).Nodup →
        ((([("a", 1)] : List (String × Nat)) ++ [("a", 2)]).map Prod.fst).Nodup)) :=
  create_call_channel_unique { call_channels := [("a", 1)] } "a" 2


/-- C8 counterexample: the µ-law round trip is not segment-stable at
x = -1: encode (-1) = 0x7F decodes to 0, which re-encodes to 0xFF. -/
theorem mu_law_roundtrip_unstable_at_neg_one :
    muEncode (-1) = 127 ∧ muDecode 127 = 0 ∧ muEncode 0 = 255 ∧
    muEncode (muDecode (muEncode (-1))) ≠ muEncode (-1) := by decide

/-- C8 (amended): for every 16-bit PCM sample x, the A-law compander is
segment-stable over a round trip; the µ-law compander is segment-stable for
every x outside {-4, -3, -2, -1}; and for both laws the reconstruction
error is bounded by the quantization step of the sample's companding
segment. -/
theorem compand_roundtrip (x : Int) (h1 : -32768 ≤ x) (h2 : x ≤ 32767) :
    aEncode (aDecode (aEncode x)) = aEncode x ∧
    (x < -4 ∨ -1 < x → muEncode (muDecode (muEncode x)) = muEncode x) ∧
    (muDecode (muEncode x) - x).natAbs ≤ muStep x ∧
    (aDecode (aEncode x) - x).natAbs ≤ aStep x := by
  by_cases hx : x < 0
  · have hqm := muQ_true ((-x - 1).toNat / 4) (by omega)
    have hqa := aQ_true ((-x - 1).toNat / 16) (by omega)
    simp only [muQCheck, aQCheck, Bool.and_eq_true, Bool.or_eq_true, beq_iff_eq,
      List.all_eq_true, List.mem_range, Nat.ble_eq] at hqm hqa
    obtain ⟨⟨hmP, hmN⟩, hmErr⟩ := hqm
    obtain ⟨⟨haP, haN⟩, haErr⟩ := hqa
    have hme := hmErr ((-x - 1).toNat % 4) (by omega)
    have hae := haErr ((-x - 1).toNat % 16) (by omega)
    simp only [muEncode, aEncode, muStep, aStep, if_pos hx]
    refine ⟨?_, ?_, ?_, ?_⟩
    · have hs : aEncode (aDecode (Nat.xor (aCore ((-x - 1).toNat / 16)).1 85 % 256)) =
          Nat.xor (aCore ((-x - 1).toNat / 16)).1 85 % 256 := haN
      simpa [aEncode, if_pos hx] using hs
    · intro hside
      have hq0 : (-x - 1).toNat / 4 ≠ 0 := by omega
      have hstab := hmN.resolve_right hq0
      simpa [muEncode, if_pos hx] using hstab
    · have hrw : muDecode (muRet ((-x - 1).toNat / 4)) - x =
          muDecode (muRet ((-x - 1).toNat / 4)) +
            ((4 * ((-x - 1).toNat / 4) + (-x - 1).toNat % 4 : Nat) : Int) + 1 := by
        omega
      rw [hrw]
      exact hme.2
    · have hrw : aDecode (Nat.xor (aCore ((-x - 1).toNat / 16)).1 85 % 256) - x =
          aDecode (Nat.xor (aCore ((-x - 1).toNat / 16)).1 85 % 256) +
            ((16 * ((-x - 1).toNat / 16) + (-x - 1).toNat % 16 : Nat) : Int) + 1 := by
        omega
      rw [hrw]
      exact hae.2
  · have hqm := muQ_true (x.toNat / 4) (by omega)
    have hqa := aQ_true (x.toNat / 16) (by omega)
    simp only [muQCheck, aQCheck, Bool.and_eq_true, Bool.or_eq_true, beq_iff_eq,
      List.all_eq_true, List.mem_range, Nat.ble_eq] at hqm hqa
    obtain ⟨⟨hmP, hmN⟩, hmErr⟩ := hqm
    obtain ⟨⟨haP, haN⟩, haErr⟩ := hqa
    have hme := hmErr (x.toNat % 4) (by omega)
    have hae := haErr (x.toNat % 16) (by omega)
    simp only [muEncode, aEncode, muStep, aStep, if_neg hx]
    refine ⟨?_, ?_, ?_, ?_⟩
    · have hs : aEncode (aDecode (Nat.xor ((aCore (x.toNat / 16)).1 + 128) 85 % 256)) =
          Nat.xor ((aCore (x.toNat / 16)).1 + 128) 85 % 256 := haP
      simpa [aEncode, if_neg hx] using hs
    · intro hside
      simpa [muEncode, if_neg hx] using hmP
    · have hrw : muDecode (muRet (x.toNat / 4) + 128) - x =
          muDecode (muRet (x.toNat / 4) + 128) -
            ((4 * (x.toNat / 4) + x.toNat % 4 : Nat) : Int) := by
        omega
      rw [hrw]
      exact hme.1
    · have hrw : aDecode (Nat.xor ((aCore (x.toNat / 16)).1 + 128) 85 % 256) - x =
          aDecode (Nat.xor ((aCore (x.toNat / 16)).1 + 128) 85 % 256) -
            ((16 * (x.toNat / 16) + x.toNat % 16 : Nat) : Int) := by
        omega
      rw [hrw]
      exact hae.1

/-- C8 witness: the amended round-trip theorem evaluated at x = 3. -/
theorem compand_roundtrip_witness :
    ((-32768 : Int) ≤ 3 ∧ (3 : Int) ≤ 32767) ∧
    (aEncode (aDecode (aEncode 3)) = aEncode 3 ∧
     ((3 : Int) < -4 ∨ (-1 : Int) < 3 → muEncode (muDecode (muEncode 3)) = muEncode 3) ∧
     (muDecode (muEncode 3) - 3).natAbs ≤ muStep 3 ∧
     (aDecode (aEncode 3) - 3).natAbs ≤ aStep 3) :=
  ⟨⟨by decide, by decide⟩, compand_roundtrip 3 (by decide) (by decide)⟩


end SimpleSip
